import Mathlib

/-!
# Recurring Ledger & Credit-Card Billing Engine — shallow embedding

Shallow embedding of the core of `functions_database.py` (and the
monthly-trend wrapper in `agent.py`): the date/cycle calculator, the
recurring expansion loops, the statement (invoice) aggregator, and the
read-side views (balance, monthly trend, pending commitments), together
with theorems settling the spec claims about them.

Python `date` objects become a `Date` structure of naturals; a raising
`date(y, m, d)` constructor becomes `mkDate : ... → Option Date`
(`none` = `ValueError`); monetary amounts become `ℚ`; database rows
become Lean structures and tables become lists.
-/

namespace Ledger

/-- Gregorian leap-year test, as Python's `calendar.isleap`. -/
def isLeapYear (y : Nat) : Bool :=
  (y % 4 == 0 && y % 100 != 0) || (y % 400 == 0)

/-- Number of days of month `m` of year `y`, as Python's
`calendar.monthrange(y, m)[1]` (only used for `1 ≤ m ≤ 12`). -/
def daysInMonth (y m : Nat) : Nat :=
  if m = 2 then (if isLeapYear y then 29 else 28)
  else if m = 4 ∨ m = 6 ∨ m = 9 ∨ m = 11 then 30
  else 31

/-- A Python `datetime.date` value: year, month, day. -/
structure Date where
  year : Nat
  month : Nat
  day : Nat
deriving DecidableEq, Repr

/-- Calendar validity of a `Date`, exactly the condition under which
Python's `date(y, m, d)` constructor succeeds. -/
def Date.valid (d : Date) : Prop :=
  1 ≤ d.month ∧ d.month ≤ 12 ∧ 1 ≤ d.day ∧ d.day ≤ daysInMonth d.year d.month

instance (d : Date) : Decidable d.valid := by
  unfold Date.valid; infer_instance

/-- Python's `date(y, m, d)`: `some` on a valid calendar date, `none`
where the constructor raises `ValueError`. -/
def mkDate (y m d : Nat) : Option Date :=
  if (⟨y, m, d⟩ : Date).valid then some ⟨y, m, d⟩ else none

/-- The `try: date(y, m, day) except ValueError: date(y, m, min(day, last_day))`
pattern used throughout `functions_database.py`. -/
def clampedDate (y m day : Nat) : Date :=
  match mkDate y m day with
  | some d => d
  | none => ⟨y, m, min day (daysInMonth y m)⟩

/-- `calculate_credit_card_due_date` (functions_database.py, lines 5–60):
maps a purchase date and a card's closing/due day to the pair
`(due_date, close_date)` of the statement the purchase belongs to. -/
def calculate_credit_card_due_date (purchase_date : Date)
    (close_day due_day : Nat) : Date × Date :=
  let purchase_year := purchase_date.year
  let purchase_month := purchase_date.month
  let purchase_day := purchase_date.day
  let r :=
    if purchase_day ≤ close_day then
      -- purchase on or before the closing day: current month's statement
      (purchase_month, purchase_year, purchase_month, purchase_year)
    else
      -- after the closing day: next month's statement, rolling over December
      let close_month := purchase_month + 1
      let (close_month, close_year) :=
        if close_month > 12 then (1, purchase_year + 1)
        else (close_month, purchase_year)
      (close_month, close_year, close_month, close_year)
  let close_date := clampedDate r.2.1 r.1 close_day
  let due_date := clampedDate r.2.2.2 r.2.2.1 due_day
  (due_date, close_date)

/-- Least-significant-first decimal digits of `n`, with explicit fuel
(`fuel ≥ 1` and `n < 10 ^ fuel` make it exact).  Fuel keeps the
definition structurally recursive, hence kernel-computable. -/
def decDigits : Nat → Nat → List Nat
  | 0, _ => []
  | fuel + 1, n => if n < 10 then [n] else n % 10 :: decDigits fuel (n / 10)

/-- Value of a least-significant-first decimal digit list. -/
def unDigits : List Nat → Nat
  | [] => 0
  | d :: ds => d + 10 * unDigits ds

/-- Decimal rendering of a natural number, as Python's `str`
(and `strftime("%Y")` for the years ≥ 1000 that occur here). -/
def natRepr (n : Nat) : String :=
  ⟨((decDigits (n + 1) n).reverse).map Nat.digitChar⟩

/-- Python's `strftime("%m")`: the month zero-padded to two digits. -/
def twoDigit (n : Nat) : String :=
  if n < 10 then "0" ++ natRepr n else natRepr n

/-- The `due_date_obj.strftime("%m/%Y")` marker appended to recurring
expense descriptions (functions_database.py, line 338). -/
def monthYearMarker (d : Date) : String :=
  twoDigit d.month ++ "/" ++ natRepr d.year

/-- The `while target_month > 12: target_month -= 12; target_year += 1`
loop of the recurring expansions, with explicit fuel (the loop runs at
most `m` times since `m` drops by 12 while it exceeds 12). -/
def normalizeMonthFuel : Nat → Nat → Nat → Nat × Nat
  | 0, y, m => (y, m)
  | fuel + 1, y, m =>
    if m > 12 then normalizeMonthFuel fuel (y + 1) (m - 12) else (y, m)

/-- Year/month normalization used by the recurring expansion loops of
`save_expense_transaction` and `save_income_transaction`:
`target_month = today.month + month_offset` reduced by the while loop. -/
def normalizeMonth (y m : Nat) : Nat × Nat :=
  normalizeMonthFuel m y m

/-- `months_to_create = recurring_months if recurring_months is not None
else 6` (functions_database.py, lines 311 and 699). -/
def monthsToCreate : Option Nat → Nat
  | some n => n
  | none => 6

/-- A row of the `transactions` table, restricted to the fields the
recurring-expansion and mark-paid claims are about. -/
structure TransactionRow where
  amount : ℚ
  description : String
  transaction_type : String
  due_date : Date
  paid_date : Option Date
deriving DecidableEq, Repr

/-- The per-offset due date of the recurring expansion loops:
`date(target_year, target_month, due_day)` with the
`try/except ValueError` clamp to the month's last day. -/
def recurringDueDate (today : Date) (due_day month_offset : Nat) : Date :=
  let tm := normalizeMonth today.year (today.month + month_offset)
  clampedDate tm.1 tm.2 due_day

/-- The recurring branch of `save_expense_transaction`
(functions_database.py, lines 306–345): one pending row per month
offset, the description suffixed with the `%m/%Y` marker. -/
def expand_recurring_expense (today : Date) (amount : ℚ) (description : String)
    (due_day : Nat) (months_to_create : Nat) : List TransactionRow :=
  (List.range months_to_create).map fun month_offset =>
    let due_date_obj := recurringDueDate today due_day month_offset
    { amount := |amount|
      description := description ++ " - " ++ monthYearMarker due_date_obj
      transaction_type := "expense"
      due_date := due_date_obj
      paid_date := none }

/-- The recurring branch of `save_income_transaction`
(functions_database.py, lines 695–730): one pending row per month
offset; the copied row keeps the base description unchanged. -/
def expand_recurring_income (today : Date) (amount : ℚ) (description : String)
    (due_day : Nat) (months_to_create : Nat) : List TransactionRow :=
  (List.range months_to_create).map fun month_offset =>
    let due_date_obj := recurringDueDate today due_day month_offset
    { amount := |amount|
      description := description
      transaction_type := "income"
      due_date := due_date_obj
      paid_date := none }

/-- A row of the `credit_cards` table (the fields the billing engine
reads). -/
structure Card where
  id : Nat
  close_day : Nat
  due_day : Nat
deriving DecidableEq, Repr

/-- A row of the `invoices` table: one credit-card statement per
(card, month, year). -/
structure Invoice where
  id : Nat
  credit_card_id : Nat
  month : Nat
  year : Nat
  total_amount : ℚ
  due_date : Date
  close_day : Nat
  is_paid : Bool
deriving DecidableEq, Repr

/-- The `invoices` table, together with the id the store will assign to
the next inserted row. -/
structure InvoiceStore where
  invoices : List Invoice
  nextId : Nat
deriving DecidableEq, Repr

/-- `get_credit_card_details` (functions_database.py, lines 62–82):
first card row matching the id. -/
def get_credit_card_details (cards : List Card) (credit_card_id : Nat) :
    Option Card :=
  cards.find? (fun c => c.id == credit_card_id)

/-- Outcome of `create_or_update_invoice`. -/
structure InvoiceResult where
  success : Bool
  invoice_id : Option Nat
  new_amount : Option ℚ
deriving DecidableEq, Repr

/-- The `invoices` lookup keyed by (card, month, year). -/
def findInvoice (s : InvoiceStore) (credit_card_id bill_month bill_year : Nat) :
    Option Invoice :=
  s.invoices.find? (fun inv => inv.credit_card_id == credit_card_id &&
    inv.month == bill_month && inv.year == bill_year)

/-- `create_or_update_invoice` (functions_database.py, lines 83–143).
If a statement for (card, month, year) exists, add `amount` to its
total (`current_amount or 0` coincides with `current_amount` on the
non-null rationals stored here); otherwise create it with
`total_amount = amount` and `is_paid = False`, building its due date
with the *unclamped* `date(bill_year, bill_month, due_day)` — when that
constructor raises, the surrounding `except` returns
`{"success": False}` and nothing is stored. -/
def create_or_update_invoice (cards : List Card) (s : InvoiceStore)
    (credit_card_id bill_month bill_year : Nat) (amount : ℚ) :
    InvoiceResult × InvoiceStore :=
  match findInvoice s credit_card_id bill_month bill_year with
  | some existing =>
    let new_amount := existing.total_amount + amount
    ({ success := true, invoice_id := some existing.id,
       new_amount := some new_amount },
     { s with invoices := s.invoices.map (fun inv =>
         if inv.id == existing.id then { inv with total_amount := new_amount }
         else inv) })
  | none =>
    match get_credit_card_details cards credit_card_id with
    | none => ({ success := false, invoice_id := none, new_amount := none }, s)
    | some card =>
      match mkDate bill_year bill_month card.due_day with
      | none =>
        ({ success := false, invoice_id := none, new_amount := none }, s)
      | some due_date =>
        ({ success := true, invoice_id := some s.nextId,
           new_amount := some amount },
         { invoices := s.invoices ++
             [{ id := s.nextId, credit_card_id := credit_card_id,
                month := bill_month, year := bill_year,
                total_amount := amount, due_date := due_date,
                close_day := card.close_day, is_paid := false }],
           nextId := s.nextId + 1 })

/-- The `transaction_data` dict of the non-recurring expense path
(nullable fields dropped by the `None` filter become `none`). -/
structure ExpenseRow where
  amount : ℚ
  description : String
  transaction_type : String
  due_date : Option Date
  paid_date : Option Date
deriving DecidableEq, Repr

/-- Outcome of the credit-card branch of `save_expense_transaction`. -/
structure SaveExpenseResult where
  success : Bool
  invoice_success : Bool
  store : InvoiceStore
  txs : List ExpenseRow
deriving DecidableEq, Repr

/-- The `payment_method == "cartao_credito"` branch of
`save_expense_transaction` (functions_database.py, lines 255–283 and
359–360): compute the cycle due date, post to the statement — a
failure there is only printed — and insert the expense row with the
clamped due date, pending. -/
def save_expense_credit_card (cards : List Card) (s : InvoiceStore)
    (txs : List ExpenseRow) (today : Date) (amount : ℚ)
    (description : String) (credit_card_id : Nat) : SaveExpenseResult :=
  match get_credit_card_details cards credit_card_id with
  | some card =>
    let dc := calculate_credit_card_due_date today card.close_day card.due_day
    let due_date_obj := dc.1
    let bill := create_or_update_invoice cards s credit_card_id
      due_date_obj.month due_date_obj.year amount
    { success := true, invoice_success := bill.1.success, store := bill.2,
      txs := txs ++ [{ amount := |amount|, description := description,
                       transaction_type := "expense",
                       due_date := some due_date_obj, paid_date := none }] }
  | none =>
    -- card not found: due_date and paid_date stay None, plain insert
    { success := true, invoice_success := true, store := s,
      txs := txs ++ [{ amount := |amount|, description := description,
                       transaction_type := "expense",
                       due_date := none, paid_date := none }] }

/-- A stored row of the `transactions` table (the fields the mark-paid
and read-view claims are about). -/
structure Tx where
  id : Nat
  user_id : Nat
  transaction_type : String
  amount : ℚ
  description : String
  due_date : Option Date
  paid_date : Option Date
deriving DecidableEq, Repr

/-- Outcome of `mark_transaction_as_paid`. -/
structure MarkPaidResult where
  success : Bool
  txs : List Tx
deriving DecidableEq, Repr

/-- `mark_transaction_as_paid` (functions_database.py, lines 502–545):
default the payment date to today, check the transaction exists for the
user, then unconditionally update its `paid_date`. -/
def mark_transaction_as_paid (txs : List Tx) (transaction_id user_id : Nat)
    (paid_date : Option Date) (today : Date) : MarkPaidResult :=
  let pd := paid_date.getD today
  match txs.find? (fun t => t.id == transaction_id &&
      t.user_id == user_id) with
  | none => { success := false, txs := txs }
  | some _ =>
    { success := true,
      txs := txs.map (fun t =>
        if t.id == transaction_id && t.user_id == user_id
        then { t with paid_date := some pd } else t) }

/-- Date comparison `a ≤ b`.  The balance query compares ISO `YYYY-MM-DD`
strings, whose lexicographic order coincides with this calendar order
for the four-digit years stored here; the commitments query compares
`datetime.date` values, which order the same way. -/
def dateLe (a b : Date) : Bool :=
  a.year < b.year || (a.year == b.year &&
    (a.month < b.month || (a.month == b.month && a.day ≤ b.day)))

/-- Strict date comparison `a < b`. -/
def dateLt (a b : Date) : Bool :=
  a.year < b.year || (a.year == b.year &&
    (a.month < b.month || (a.month == b.month && a.day < b.day)))

/-- The record returned by `calculate_user_balance` (minus the echoed
period). -/
structure BalanceResult where
  total_income : ℚ
  total_expenses : ℚ
  balance : ℚ
  income_count : Nat
  expense_count : Nat
deriving DecidableEq, Repr

/-- `calculate_user_balance` (functions_database.py, lines 899–981):
when either bound is missing both default to the current month so far;
keep only the user's settled rows (`paid_date` non-null) with
`paid_date` in `[start, end]`; one pass accumulates income/expense
totals and counts, ignoring any other `transaction_type`. -/
def calculate_user_balance (txs : List Tx) (user_id : Nat) (today : Date)
    (start_date end_date : Option Date) : BalanceResult :=
  let range : Date × Date :=
    match start_date, end_date with
    | some s, some e => (s, e)
    | _, _ => ({ today with day := 1 }, today)
  let rows := txs.filter (fun t => t.user_id == user_id &&
    match t.paid_date with
    | none => false
    | some pd => dateLe range.1 pd && dateLe pd range.2)
  let totals := rows.foldl
    (fun (acc : ℚ × ℚ × Nat × Nat) t =>
      if t.transaction_type == "income" then
        (acc.1 + t.amount, acc.2.1, acc.2.2.1 + 1, acc.2.2.2)
      else if t.transaction_type == "expense" then
        (acc.1, acc.2.1 + t.amount, acc.2.2.1, acc.2.2.2 + 1)
      else acc)
    (0, 0, 0, 0)
  { total_income := totals.1, total_expenses := totals.2.1,
    balance := totals.1 - totals.2.1,
    income_count := totals.2.2.1, expense_count := totals.2.2.2 }

/-- One period bucket of `get_pending_commitments`. -/
structure Bucket where
  total : ℚ
  count : Nat
  items : List Tx
deriving DecidableEq, Repr

/-- The three buckets returned by `get_pending_commitments`. -/
structure Commitments where
  this_month : Bucket
  next_month : Bucket
  future : Bucket
deriving DecidableEq, Repr

/-- Successor day in the calendar, for `date + timedelta(days = n)`. -/
def nextDay (d : Date) : Date :=
  if d.day < daysInMonth d.year d.month then { d with day := d.day + 1 }
  else if d.month < 12 then { year := d.year, month := d.month + 1, day := 1 }
  else { year := d.year + 1, month := 1, day := 1 }

/-- `d + timedelta(days = n)`. -/
def addDays : Date → Nat → Date
  | d, 0 => d
  | d, n + 1 => addDays (nextDay d) n

def Bucket.add (b : Bucket) (t : Tx) : Bucket :=
  { total := b.total + t.amount, count := b.count + 1,
    items := b.items ++ [t] }

/-- `get_pending_commitments` (functions_database.py, lines 1125–1196):
bucket the user's pending expenses by due date against the current and
next month's first days (`today.replace(day=28) + timedelta(days=4)`
lands in the next month); rows whose `due_date` is null fall in no
bucket.  (The query's `order by due_date` affects only the `items`
order, not the totals and counts the claims are about.) -/
def get_pending_commitments (txs : List Tx) (user_id : Nat) (today : Date) :
    Commitments :=
  let current_month_start := { today with day := 1 }
  let next_month := addDays { today with day := 28 } 4
  let next_month_start := { next_month with day := 1 }
  let pending := txs.filter (fun t => t.user_id == user_id &&
    t.transaction_type == "expense" && t.paid_date == none)
  pending.foldl
    (fun acc t =>
      match t.due_date with
      | none => acc
      | some d =>
        if dateLe current_month_start d && dateLt d next_month_start then
          { acc with this_month := acc.this_month.add t }
        else if dateLe next_month_start d &&
            d.month == next_month_start.month then
          { acc with next_month := acc.next_month.add t }
        else
          { acc with future := acc.future.add t })
    ⟨⟨0, 0, []⟩, ⟨0, 0, []⟩, ⟨0, 0, []⟩⟩

/-- Predecessor day in the calendar, for `date - timedelta(days = n)`. -/
def prevDay (d : Date) : Date :=
  if d.day > 1 then { d with day := d.day - 1 }
  else if d.month > 1 then
    { year := d.year, month := d.month - 1,
      day := daysInMonth d.year (d.month - 1) }
  else { year := d.year - 1, month := 12, day := 31 }

/-- `d - timedelta(days = n)`. -/
def subDays : Date → Nat → Date
  | d, 0 => d
  | d, n + 1 => subDays (prevDay d) n

/-- One row of the monthly-trend list (the `month_name` string is
display-only and omitted). -/
structure TrendRow where
  year : Nat
  month : Nat
  income : ℚ
  expenses : ℚ
  balance : ℚ
deriving DecidableEq, Repr

/-- `get_monthly_trend` (functions_database.py, lines 1062–1122): for
`month_offset` in `range(months - 1, -1, -1)`, the target month is the
month of `today.replace(day=1) - timedelta(days = month_offset * 30)`,
and the row carries that month's balance figures. -/
def get_monthly_trend (txs : List Tx) (user_id : Nat) (today : Date)
    (months : Nat) : List TrendRow :=
  (List.range months).map (fun k =>
    let month_offset := months - 1 - k
    let target_date := subDays { today with day := 1 } (month_offset * 30)
    let year := target_date.year
    let month := target_date.month
    let first_day : Date := ⟨year, month, 1⟩
    let last_day : Date := ⟨year, month, daysInMonth year month⟩
    let balance_data := calculate_user_balance txs user_id today
      (some first_day) (some last_day)
    { year := year, month := month,
      income := balance_data.total_income,
      expenses := balance_data.total_expenses,
      balance := balance_data.balance })

/-- The month-count normalization of `show_monthly_trend` (agent.py,
lines 937–957): `None` or `< 1` becomes 6, then `> 12` is capped
to 12. -/
def clampTrendMonths : Option Int → Nat
  | none => 6
  | some m => if m < 1 then 6 else if m > 12 then 12 else m.toNat

/-- The across-window averages computed by `show_monthly_trend`
(agent.py, lines 965–968): sums over the trend rows divided by the
row count. -/
def trendAverages (rows : List TrendRow) : ℚ × ℚ × ℚ :=
  ((rows.map TrendRow.income).sum / rows.length,
   (rows.map TrendRow.expenses).sum / rows.length,
   (rows.map TrendRow.balance).sum / rows.length)

/-- Position of a date in the calendar (strictly monotone on valid
dates): a verification measure, not part of the source. -/
def dateIdx (d : Date) : Nat :=
  (d.year * 12 + d.month) * 32 + d.day

/-- Total number of rows bucketed by `get_pending_commitments`: a
verification helper, not part of the source. -/
def Commitments.countsSum (c : Commitments) : Nat :=
  c.this_month.count + c.next_month.count + c.future.count

/-- The filter `calculate_user_balance` applies: the user's settled
rows whose `paid_date` lies in `[s, e]`. -/
def settledInRange (uid : Nat) (s e : Date) (t : Tx) : Bool :=
  t.user_id == uid &&
    match t.paid_date with
    | none => false
    | some pd => dateLe s pd && dateLe pd e

theorem daysInMonth_bounds (y m : Nat) (h1 : 1 ≤ m) (h2 : m ≤ 12) :
    28 ≤ daysInMonth y m ∧ daysInMonth y m ≤ 31 := by
  unfold daysInMonth
  interval_cases m <;> simp <;> split <;> omega

theorem clampedDate_eq (y m day : Nat) :
    clampedDate y m day = ⟨y, m, min day (daysInMonth y m)⟩ := by
  unfold clampedDate mkDate
  split
  · rename_i d hd
    simp only [Option.ite_none_right_eq_some, Option.some.injEq] at hd
    obtain ⟨hv, rfl⟩ := hd
    obtain ⟨_, _, _, h4⟩ := hv
    simp [Date.mk.injEq, Nat.min_eq_left h4]
  · rfl

theorem clampedDate_valid (y m day : Nat) (hm1 : 1 ≤ m) (hm2 : m ≤ 12)
    (hd : 1 ≤ day) : (clampedDate y m day).valid := by
  rw [clampedDate_eq]
  have := daysInMonth_bounds y m hm1 hm2
  unfold Date.valid
  dsimp only
  exact ⟨hm1, hm2, by omega, by omega⟩

/-- C1. For every valid purchase date and every `closing_day`, `due_day`
in 1–31, `calculate_credit_card_due_date` assigns the purchase to the
statement closing in the purchase's own month iff `day ≤ closing_day`
(otherwise the next month, with December rolling the year over); the due
date lies in the same month as the closing date; both returned dates are
valid calendar dates; and each configured day is clamped to the month's
last day. -/
theorem assign_cycle_correct (purchase : Date) (close_day due_day : Nat)
    (hv : purchase.valid)
    (hc1 : 1 ≤ close_day) (hc2 : close_day ≤ 31)
    (hd1 : 1 ≤ due_day) (hd2 : due_day ≤ 31)
    (due close : Date)
    (heq : calculate_credit_card_due_date purchase close_day due_day
      = (due, close)) :
    -- cycle assignment with December rollover
    (purchase.day ≤ close_day →
      close.month = purchase.month ∧ close.year = purchase.year) ∧
    (close_day < purchase.day → purchase.month < 12 →
      close.month = purchase.month + 1 ∧ close.year = purchase.year) ∧
    (close_day < purchase.day → purchase.month = 12 →
      close.month = 1 ∧ close.year = purchase.year + 1) ∧
    -- due date lies in the statement month
    due.month = close.month ∧ due.year = close.year ∧
    -- both dates are valid calendar dates
    due.valid ∧ close.valid ∧
    -- clamping to the last day of the statement month
    close.day = min close_day (daysInMonth close.year close.month) ∧
    due.day = min due_day (daysInMonth due.year due.month) := by
  obtain ⟨hm1, hm2, hday1, hday2⟩ := hv
  by_cases hle : purchase.day ≤ close_day
  · simp only [calculate_credit_card_due_date, hle, if_true,
      Prod.mk.injEq] at heq
    obtain ⟨rfl, rfl⟩ := heq
    refine ⟨fun _ => ⟨by simp [clampedDate_eq], by simp [clampedDate_eq]⟩,
      fun h => absurd h (by omega), fun h => absurd h (by omega),
      by simp [clampedDate_eq], by simp [clampedDate_eq],
      clampedDate_valid _ _ _ hm1 hm2 hd1,
      clampedDate_valid _ _ _ hm1 hm2 hc1,
      by simp [clampedDate_eq], by simp [clampedDate_eq]⟩
  · by_cases h12 : purchase.month + 1 > 12
    · simp only [calculate_credit_card_due_date, hle, if_false, h12, if_true,
        reduceIte, Prod.mk.injEq] at heq
      obtain ⟨rfl, rfl⟩ := heq
      refine ⟨fun h => absurd h hle,
        fun _ h => absurd h (by omega),
        fun _ _ => ⟨by simp [clampedDate_eq], by simp [clampedDate_eq]⟩,
        by simp [clampedDate_eq], by simp [clampedDate_eq],
        clampedDate_valid _ _ _ (by omega) (by omega) hd1,
        clampedDate_valid _ _ _ (by omega) (by omega) hc1,
        by simp [clampedDate_eq], by simp [clampedDate_eq]⟩
    · simp only [calculate_credit_card_due_date, hle, if_false, h12,
        reduceIte, Prod.mk.injEq] at heq
      obtain ⟨rfl, rfl⟩ := heq
      refine ⟨fun h => absurd h hle,
        fun _ _ => ⟨by simp [clampedDate_eq], by simp [clampedDate_eq]⟩,
        fun _ h => absurd h (by omega),
        by simp [clampedDate_eq], by simp [clampedDate_eq],
        clampedDate_valid _ _ _ (by omega) (by omega) hd1,
        clampedDate_valid _ _ _ (by omega) (by omega) hc1,
        by simp [clampedDate_eq], by simp [clampedDate_eq]⟩

/-- Witness for C1 at a concrete input: purchase 2025-01-31, card with
closing day 15 and due day 31. -/
theorem assign_cycle_correct_witness :
    (⟨2025, 1, 31⟩ : Date).valid ∧ (1 ≤ 15 ∧ 15 ≤ 31) ∧ (1 ≤ 31 ∧ 31 ≤ 31) ∧
    ((⟨2025, 2, 15⟩ : Date).month = (⟨2025, 1, 31⟩ : Date).month + 1 ∧
     (⟨2025, 2, 28⟩ : Date).valid) := by
  have h := assign_cycle_correct ⟨2025, 1, 31⟩ 15 31 (by decide) (by decide)
    (by decide) (by decide) (by decide) ⟨2025, 2, 28⟩ ⟨2025, 2, 15⟩ (by decide)
  exact ⟨by decide, ⟨by decide, by decide⟩, ⟨by decide, by decide⟩,
    (h.2.1 (by decide) (by decide)).1, h.2.2.2.2.2.1⟩

/-- C2 counterexample. The claim asserts that a purchase on 2025-01-05
with `closing_day = 1`, `due_day = 10` lands on the statement of month 1
of 2025 with due date 2025-01-10; the code assigns it to month 2 (day
5 > closing day 1), with due date 2025-02-10. -/
theorem purchase_jan05_close1_counterexample :
    (calculate_credit_card_due_date ⟨2025, 1, 5⟩ 1 10).2.month ≠ 1 ∧
    (calculate_credit_card_due_date ⟨2025, 1, 5⟩ 1 10).1 ≠ ⟨2025, 1, 10⟩ := by
  decide

/-- C2 amended. A purchase on 2025-01-05 with `closing_day = 1`,
`due_day = 10` is assigned to the statement of month 2, year 2025
(5 > 1, so it falls past the closing day), with closing date 2025-02-01
and due date 2025-02-10. -/
theorem purchase_jan05_close1_amended :
    calculate_credit_card_due_date ⟨2025, 1, 5⟩ 1 10 =
      (⟨2025, 2, 10⟩, ⟨2025, 2, 1⟩) := by
  decide

theorem normalizeMonthFuel_spec (fuel : Nat) : ∀ y m, 1 ≤ m →
    m ≤ 12 + 12 * fuel →
    normalizeMonthFuel fuel y m = (y + (m - 1) / 12, (m - 1) % 12 + 1) := by
  induction fuel with
  | zero =>
    intro y m h1 h2
    simp only [normalizeMonthFuel, Prod.mk.injEq]
    omega
  | succ fuel ih =>
    intro y m h1 h2
    unfold normalizeMonthFuel
    split
    · rw [ih (y + 1) (m - 12) (by omega) (by omega)]
      simp only [Prod.mk.injEq]
      omega
    · simp only [Prod.mk.injEq]
      omega

theorem normalizeMonth_spec (y m : Nat) (h1 : 1 ≤ m) :
    normalizeMonth y m = (y + (m - 1) / 12, (m - 1) % 12 + 1) :=
  normalizeMonthFuel_spec m y m h1 (by omega)

theorem recurringDueDate_spec (today : Date) (due_day i : Nat)
    (hm1 : 1 ≤ today.month) :
    (recurringDueDate today due_day i).year * 12 +
        (recurringDueDate today due_day i).month
      = today.year * 12 + today.month + i ∧
    1 ≤ (recurringDueDate today due_day i).month ∧
    (recurringDueDate today due_day i).month ≤ 12 ∧
    (recurringDueDate today due_day i).day
      = min due_day (daysInMonth (recurringDueDate today due_day i).year
          (recurringDueDate today due_day i).month) := by
  unfold recurringDueDate
  rw [normalizeMonth_spec today.year (today.month + i) (by omega)]
  simp only [clampedDate_eq]
  refine ⟨by omega, by omega, by omega, trivial⟩

theorem recurringDueDate_valid (today : Date) (due_day i : Nat)
    (hm1 : 1 ≤ today.month) (hd1 : 1 ≤ due_day) :
    (recurringDueDate today due_day i).valid := by
  unfold recurringDueDate
  rw [normalizeMonth_spec today.year (today.month + i) (by omega)]
  exact clampedDate_valid _ _ _ (by omega) (by omega) hd1

/-- C3. For every recurring declaration with month count `m`
(defaulting to 6 when the caller supplies none), both the expense and
the income expansion insert exactly `m` rows, the `i`-th row falling in
the `i`-th consecutive calendar month counted from the current month
(year rollover included, expressed as equality of `year * 12 + month`
indices), each row's due date equal to the target day clamped to the
month's last day (hence a valid calendar date), and every row pending
(`paid_date = none`). -/
theorem expand_recurring_correct (today : Date) (amount : ℚ)
    (descE descI : String) (due_day : Nat) (rm : Option Nat)
    (hv : today.valid) (hd1 : 1 ≤ due_day) :
    monthsToCreate none = 6 ∧
    ∀ rows ∈ [expand_recurring_expense today amount descE due_day
                (monthsToCreate rm),
              expand_recurring_income today amount descI due_day
                (monthsToCreate rm)],
      rows.length = monthsToCreate rm ∧
      rows.map (fun r => r.due_date.year * 12 + r.due_date.month)
        = (List.range (monthsToCreate rm)).map
            (fun i => today.year * 12 + today.month + i) ∧
      ∀ r ∈ rows, r.paid_date = none ∧ r.due_date.valid ∧
        r.due_date.day
          = min due_day (daysInMonth r.due_date.year r.due_date.month) := by
  obtain ⟨hm1, hm2, hday1, hday2⟩ := hv
  refine ⟨rfl, ?_⟩
  intro rows hrows
  simp only [List.mem_cons, List.not_mem_nil, or_false] at hrows
  have hkey : ∀ n (mk : Date → TransactionRow),
      (∀ d, (mk d).due_date = d ∧ (mk d).paid_date = none) →
      ((List.range n).map
          (fun i => mk (recurringDueDate today due_day i))).length = n ∧
      ((List.range n).map
          (fun i => mk (recurringDueDate today due_day i))).map
          (fun r => r.due_date.year * 12 + r.due_date.month)
        = (List.range n).map (fun i => today.year * 12 + today.month + i) ∧
      ∀ r ∈ (List.range n).map
          (fun i => mk (recurringDueDate today due_day i)),
        r.paid_date = none ∧ r.due_date.valid ∧
        r.due_date.day
          = min due_day (daysInMonth r.due_date.year r.due_date.month) := by
    intro n mk hmk
    refine ⟨by simp, ?_, ?_⟩
    · rw [List.map_map]
      refine List.map_congr_left ?_
      intro i _
      simp only [Function.comp_apply, (hmk _).1]
      exact (recurringDueDate_spec today due_day i hm1).1
    · intro r hr
      simp only [List.mem_map, List.mem_range] at hr
      obtain ⟨i, _, rfl⟩ := hr
      have hs := recurringDueDate_spec today due_day i hm1
      refine ⟨(hmk _).2, ?_, ?_⟩
      · rw [(hmk _).1]
        exact recurringDueDate_valid today due_day i hm1 hd1
      · rw [(hmk _).1]
        exact hs.2.2.2
  rcases hrows with rfl | rfl
  · exact hkey (monthsToCreate rm)
      (fun d => { amount := |amount|,
                  description := descE ++ " - " ++ monthYearMarker d,
                  transaction_type := "expense", due_date := d,
                  paid_date := none })
      (fun _ => ⟨rfl, rfl⟩)
  · exact hkey (monthsToCreate rm)
      (fun d => { amount := |amount|, description := descI,
                  transaction_type := "income", due_date := d,
                  paid_date := none })
      (fun _ => ⟨rfl, rfl⟩)

/-- Witness for C3: a 3-month recurring expense declared on 2025-11-15
with target day 31 produces exactly 3 rows. -/
theorem expand_recurring_correct_witness :
    (⟨2025, 11, 15⟩ : Date).valid ∧ 1 ≤ 31 ∧
    (expand_recurring_expense ⟨2025, 11, 15⟩ 100 "Internet" 31
        (monthsToCreate (some 3))).length = monthsToCreate (some 3) := by
  have h := expand_recurring_correct ⟨2025, 11, 15⟩ 100 "Internet" "Salario"
    31 (some 3) (by decide) (by decide)
  exact ⟨by decide, by decide,
    (h.2 _ (List.mem_cons_self _ _)).1⟩

theorem unDigits_decDigits : ∀ fuel n, n < 10 ^ fuel →
    unDigits (decDigits fuel n) = n := by
  intro fuel
  induction fuel with
  | zero =>
    intro n h
    simp only [pow_zero, Nat.lt_one_iff] at h
    simp [h, decDigits, unDigits]
  | succ fuel ih =>
    intro n h
    unfold decDigits
    split
    · simp [unDigits]
    · simp only [unDigits]
      rw [ih (n / 10) (by rw [pow_succ] at h; omega)]
      omega

theorem decDigits_lt_ten : ∀ fuel n, ∀ d ∈ decDigits fuel n, d < 10 := by
  intro fuel
  induction fuel with
  | zero => intro n d hd; simp [decDigits] at hd
  | succ fuel ih =>
    intro n d hd
    unfold decDigits at hd
    split at hd
    · simp only [List.mem_singleton] at hd
      omega
    · simp only [List.mem_cons] at hd
      rcases hd with rfl | hd
      · omega
      · exact ih _ d hd

theorem digitChar_inj_lt :
    ∀ a < 10, ∀ b < 10, Nat.digitChar a = Nat.digitChar b → a = b := by
  decide

theorem map_digitChar_inj : ∀ l1 l2 : List Nat, (∀ d ∈ l1, d < 10) →
    (∀ d ∈ l2, d < 10) →
    l1.map Nat.digitChar = l2.map Nat.digitChar → l1 = l2 := by
  intro l1
  induction l1 with
  | nil =>
    intro l2 _ _ h
    cases l2 with
    | nil => rfl
    | cons b t => simp at h
  | cons a t1 ih =>
    intro l2 h1 h2 h
    cases l2 with
    | nil => simp at h
    | cons b t2 =>
      simp only [List.map_cons, List.cons.injEq] at h
      have hab := digitChar_inj_lt a (h1 a (List.mem_cons_self a t1))
        b (h2 b (List.mem_cons_self b t2)) h.1
      rw [hab, ih t2 (fun d hd => h1 d (List.mem_cons_of_mem a hd))
        (fun d hd => h2 d (List.mem_cons_of_mem b hd)) h.2]

theorem lt_ten_pow_succ (n : Nat) : n < 10 ^ (n + 1) :=
  lt_of_lt_of_le (Nat.lt_pow_self (by norm_num) n)
    (Nat.pow_le_pow_right (by norm_num) (Nat.le_succ n))

theorem natRepr_data_inj (a b : Nat)
    (h : (natRepr a).data = (natRepr b).data) : a = b := by
  unfold natRepr at h
  dsimp only at h
  have hrev := map_digitChar_inj _ _
    (fun d hd => decDigits_lt_ten _ _ d (List.mem_reverse.mp hd))
    (fun d hd => decDigits_lt_ten _ _ d (List.mem_reverse.mp hd)) h
  have hlist : decDigits (a + 1) a = decDigits (b + 1) b := by
    have := congrArg List.reverse hrev
    simpa using this
  have ha := unDigits_decDigits (a + 1) a (lt_ten_pow_succ a)
  have hb := unDigits_decDigits (b + 1) b (lt_ten_pow_succ b)
  rw [← ha, ← hb, hlist]

theorem twoDigit_data_length (m : Nat) (h1 : 1 ≤ m) (h2 : m ≤ 12) :
    (twoDigit m).data.length = 2 := by
  interval_cases m <;> decide

theorem twoDigit_data_inj (m1 m2 : Nat) (h11 : 1 ≤ m1) (h12 : m1 ≤ 12)
    (h21 : 1 ≤ m2) (h22 : m2 ≤ 12)
    (h : (twoDigit m1).data = (twoDigit m2).data) : m1 = m2 := by
  interval_cases m1 <;> interval_cases m2 <;> revert h <;> decide

theorem monthYearMarker_data_inj (d e : Date)
    (h1 : 1 ≤ d.month) (h2 : d.month ≤ 12)
    (h3 : 1 ≤ e.month) (h4 : e.month ≤ 12)
    (h : (monthYearMarker d).data = (monthYearMarker e).data) :
    d.month = e.month ∧ d.year = e.year := by
  unfold monthYearMarker at h
  simp only [String.data_append, List.append_assoc] at h
  have hlen : (twoDigit d.month).data.length
      = (twoDigit e.month).data.length := by
    rw [twoDigit_data_length _ h1 h2, twoDigit_data_length _ h3 h4]
  obtain ⟨hm, hy⟩ := List.append_inj h hlen
  refine ⟨twoDigit_data_inj _ _ h1 h2 h3 h4 hm, ?_⟩
  have hy2 : (natRepr d.year).data = (natRepr e.year).data := by
    simpa using hy
  exact natRepr_data_inj _ _ hy2

/-- C8 counterexample. A 2-month recurring income declared on 2025-01-10
with base description "Salario" produces two rows, in months 1 and 2,
whose descriptions are both exactly "Salario": income rows carry no
month/year marker and are not distinguishable by description. -/
theorem recurring_income_no_marker_counterexample :
    (expand_recurring_income ⟨2025, 1, 10⟩ 100 "Salario" 5 2).map
        TransactionRow.description = ["Salario", "Salario"] ∧
    (expand_recurring_income ⟨2025, 1, 10⟩ 100 "Salario" 5 2).map
        (fun r => r.due_date.month) = [1, 2] := by
  constructor <;> rfl

/-- C8 amended. Only the rows produced by the recurring *expense*
expansion have their description suffixed with the `%m/%Y` month/year
marker of the month the row belongs to — making otherwise-identical
expense rows pairwise distinguishable by description — while the rows
produced by the recurring *income* expansion keep the base description
unchanged. -/
theorem recurring_description_suffix (today : Date) (amount : ℚ)
    (descE descI : String) (due_day n : Nat) (hm1 : 1 ≤ today.month) :
    (∀ r ∈ expand_recurring_expense today amount descE due_day n,
       r.description = descE ++ " - " ++ monthYearMarker r.due_date) ∧
    (expand_recurring_expense today amount descE due_day n).Pairwise
      (fun r s => r.description ≠ s.description) ∧
    (∀ r ∈ expand_recurring_income today amount descI due_day n,
       r.description = descI) := by
  refine ⟨?_, ?_, ?_⟩
  · intro r hr
    simp only [expand_recurring_expense, List.mem_map] at hr
    obtain ⟨i, _, rfl⟩ := hr
    rfl
  · unfold expand_recurring_expense
    rw [List.pairwise_map]
    refine (List.pairwise_lt_range n).imp ?_
    intro i j hij hcontra
    dsimp only at hcontra
    have hdata := congrArg String.data hcontra
    simp only [String.data_append, List.append_assoc] at hdata
    have hmarker := List.append_cancel_left
      (List.append_cancel_left hdata)
    have hi := recurringDueDate_spec today due_day i hm1
    have hj := recurringDueDate_spec today due_day j hm1
    have := monthYearMarker_data_inj _ _ hi.2.1 hi.2.2.1 hj.2.1 hj.2.2.1
      hmarker
    omega
  · intro r hr
    simp only [expand_recurring_income, List.mem_map] at hr
    obtain ⟨i, _, rfl⟩ := hr
    rfl

/-- Witness for C8 amended: a 2-month recurring expense "Aluguel"
declared on 2025-12-05 carries the marker suffix on each row. -/
theorem recurring_description_suffix_witness :
    1 ≤ (⟨2025, 12, 5⟩ : Date).month ∧
    ∀ r ∈ expand_recurring_expense ⟨2025, 12, 5⟩ 80 "Aluguel" 10 2,
      r.description = "Aluguel" ++ " - " ++ monthYearMarker r.due_date := by
  have h := recurring_description_suffix ⟨2025, 12, 5⟩ 80 "Aluguel" "Salario"
    10 2 (by decide)
  exact ⟨by decide, h.1⟩

theorem find?_none_append {α} (l1 l2 : List α) (p : α → Bool)
    (h : l1.find? p = none) : (l1 ++ l2).find? p = l2.find? p := by
  induction l1 with
  | nil => simp
  | cons a t ih =>
    rw [List.find?_cons] at h
    rw [List.cons_append, List.find?_cons]
    cases hpa : p a
    · simp only [hpa] at h ⊢
      exact ih h
    · simp [hpa] at h

theorem find?_none_append_map {α} (l : List α) (x : α) (p : α → Bool)
    (f : α → α) (hl : l.find? p = none) (hf : ∀ a, p (f a) = p a) :
    ((l ++ [x]).map f).find? p
      = if p (f x) = true then some (f x) else none := by
  induction l with
  | nil =>
    simp only [List.nil_append, List.map_cons, List.map_nil, List.find?_cons]
    cases hpx : p (f x) <;> simp [hpx]
  | cons a t ih =>
    rw [List.find?_cons] at hl
    cases hpa : p a
    · simp only [hpa] at hl
      rw [List.cons_append, List.map_cons, List.find?_cons, hf a, hpa]
      exact ih hl
    · simp [hpa] at hl

/-- Valid-day and clamping facts about the due date returned by
`calculate_credit_card_due_date`, shared by several claims. -/
theorem calc_due_props (purchase : Date) (close_day due_day : Nat)
    (hv : purchase.valid) (hd1 : 1 ≤ due_day) :
    (calculate_credit_card_due_date purchase close_day due_day).1.valid ∧
    (calculate_credit_card_due_date purchase close_day due_day).1.day
      = min due_day (daysInMonth
          (calculate_credit_card_due_date purchase close_day due_day).1.year
          (calculate_credit_card_due_date purchase close_day due_day).1.month) := by
  obtain ⟨hm1, hm2, hday1, hday2⟩ := hv
  unfold calculate_credit_card_due_date
  by_cases hle : purchase.day ≤ close_day
  · simp only [hle, if_true]
    exact ⟨clampedDate_valid _ _ _ hm1 hm2 hd1, by simp [clampedDate_eq]⟩
  · by_cases h12 : purchase.month + 1 > 12
    · simp only [hle, if_false, h12, if_true, reduceIte]
      exact ⟨clampedDate_valid _ _ _ (by omega) (by omega) hd1,
        by simp [clampedDate_eq]⟩
    · simp only [hle, if_false, h12, reduceIte]
      exact ⟨clampedDate_valid _ _ _ (by omega) (by omega) hd1,
        by simp [clampedDate_eq]⟩

/-- One posting to an absent (card, month, year) key creates the
statement with the posted amount and `is_paid = false`; a second
posting to the now-present key accumulates into `p + q`. -/
theorem create_then_update (cards : List Card) (s : InvoiceStore)
    (cid m y : Nat) (card : Card) (p q : ℚ)
    (hcard : get_credit_card_details cards cid = some card)
    (hdd : (⟨y, m, card.due_day⟩ : Date).valid)
    (hnone : findInvoice s cid m y = none) :
    (create_or_update_invoice cards s cid m y p).1.success = true ∧
    (findInvoice (create_or_update_invoice cards s cid m y p).2 cid m y).map
        (fun inv => (inv.total_amount, inv.is_paid)) = some (p, false) ∧
    (create_or_update_invoice cards
        (create_or_update_invoice cards s cid m y p).2 cid m y q).1.success
      = true ∧
    (findInvoice (create_or_update_invoice cards
        (create_or_update_invoice cards s cid m y p).2 cid m y q).2
        cid m y).map Invoice.total_amount = some (p + q) := by
  have hmk : mkDate y m card.due_day = some ⟨y, m, card.due_day⟩ := by
    simp [mkDate, hdd]
  have hinv1 : create_or_update_invoice cards s cid m y p =
      ({ success := true, invoice_id := some s.nextId, new_amount := some p },
       { invoices := s.invoices ++
           [{ id := s.nextId, credit_card_id := cid, month := m, year := y,
              total_amount := p, due_date := ⟨y, m, card.due_day⟩,
              close_day := card.close_day, is_paid := false }],
         nextId := s.nextId + 1 }) := by
    unfold create_or_update_invoice
    rw [hnone]
    dsimp only
    rw [hcard]
    dsimp only
    rw [hmk]
  have hpred : ∀ inv : Invoice,
      (fun inv : Invoice => inv.credit_card_id == cid && inv.month == m &&
        inv.year == y) inv = true ↔
      (inv.credit_card_id = cid ∧ inv.month = m ∧ inv.year = y) := by
    intro inv
    simp [Bool.and_assoc]
  have hfind1 : findInvoice
      { invoices := s.invoices ++
          [{ id := s.nextId, credit_card_id := cid, month := m, year := y,
             total_amount := p, due_date := ⟨y, m, card.due_day⟩,
             close_day := card.close_day, is_paid := false }],
        nextId := s.nextId + 1 } cid m y = some
      { id := s.nextId, credit_card_id := cid, month := m, year := y,
        total_amount := p, due_date := ⟨y, m, card.due_day⟩,
        close_day := card.close_day, is_paid := false } := by
    unfold findInvoice at hnone ⊢
    dsimp only
    rw [find?_none_append _ _ _ hnone]
    simp [List.find?_cons]
  have hupd : create_or_update_invoice cards
      { invoices := s.invoices ++
          [{ id := s.nextId, credit_card_id := cid, month := m, year := y,
             total_amount := p, due_date := ⟨y, m, card.due_day⟩,
             close_day := card.close_day, is_paid := false }],
        nextId := s.nextId + 1 } cid m y q
      = ({ success := true, invoice_id := some s.nextId,
           new_amount := some (p + q) },
         { invoices := (s.invoices ++
             [({ id := s.nextId, credit_card_id := cid, month := m, year := y,
                 total_amount := p, due_date := ⟨y, m, card.due_day⟩,
                 close_day := card.close_day, is_paid := false } : Invoice)]).map
             (fun inv : Invoice => if inv.id == s.nextId
               then { inv with total_amount := p + q } else inv),
           nextId := s.nextId + 1 }) := by
    unfold create_or_update_invoice
    rw [hfind1]
  refine ⟨by rw [hinv1], by rw [hinv1]; dsimp only; rw [hfind1]; rfl,
    by rw [hinv1]; dsimp only; rw [hupd], ?_⟩
  rw [hinv1]
  dsimp only
  rw [hupd]
  unfold findInvoice
  dsimp only
  rw [find?_none_append_map _ _ _ _ hnone ?hf]
  case hf =>
    intro inv
    by_cases hid : inv.id == s.nextId
    · simp [hid]
    · simp [hid]
  simp

/-- C4. With the (card, month, year) statement initially absent (and
the card present with a due day valid in that month), the first posting
creates the statement with `total_amount` equal to the posted amount
and `is_paid = false`, the second accumulates, and posting amounts
`a` then `b` or `b` then `a` both leave `total_amount = a + b`. -/
theorem invoice_two_postings_sum (cards : List Card) (s : InvoiceStore)
    (cid m y : Nat) (card : Card) (a b : ℚ)
    (hcard : get_credit_card_details cards cid = some card)
    (hdd : (⟨y, m, card.due_day⟩ : Date).valid)
    (hnone : findInvoice s cid m y = none) :
    (findInvoice (create_or_update_invoice cards s cid m y a).2 cid m y).map
        (fun inv => (inv.total_amount, inv.is_paid)) = some (a, false) ∧
    (create_or_update_invoice cards s cid m y a).1.success = true ∧
    (create_or_update_invoice cards
        (create_or_update_invoice cards s cid m y a).2 cid m y b).1.success
      = true ∧
    (findInvoice (create_or_update_invoice cards
        (create_or_update_invoice cards s cid m y a).2 cid m y b).2
        cid m y).map Invoice.total_amount = some (a + b) ∧
    (findInvoice (create_or_update_invoice cards
        (create_or_update_invoice cards s cid m y b).2 cid m y a).2
        cid m y).map Invoice.total_amount = some (a + b) := by
  have hab := create_then_update cards s cid m y card a b hcard hdd hnone
  have hba := create_then_update cards s cid m y card b a hcard hdd hnone
  exact ⟨hab.2.1, hab.1, hab.2.2.1, hab.2.2.2,
    by rw [hba.2.2.2]; ring_nf⟩

/-- Witness for C4: amounts 50 and 75 posted to card 1's statement of
2025-01 on an empty store total 125 in either order. -/
theorem invoice_two_postings_sum_witness :
    get_credit_card_details [⟨1, 1, 10⟩] 1 = some ⟨1, 1, 10⟩ ∧
    (⟨2025, 1, 10⟩ : Date).valid ∧
    findInvoice ⟨[], 0⟩ 1 1 2025 = none ∧
    (findInvoice (create_or_update_invoice [⟨1, 1, 10⟩]
        (create_or_update_invoice [⟨1, 1, 10⟩] ⟨[], 0⟩ 1 1 2025 50).2
        1 1 2025 75).2 1 1 2025).map Invoice.total_amount = some (50 + 75) := by
  have h := invoice_two_postings_sum [⟨1, 1, 10⟩] ⟨[], 0⟩ 1 1 2025 ⟨1, 1, 10⟩
    50 75 (by decide) (by decide) (by decide)
  exact ⟨by decide, by decide, by decide, h.2.2.2.1⟩

/-- C10. When the card's configured due day exceeds the number of days
of the statement month and no statement row exists yet for that
(card, month, year), saving a credit-card expense still inserts the
transaction row — pending, with the due date clamped to the month's
last day — but `create_or_update_invoice` reports failure and stores
no statement row, because it rebuilds the due date without clamping
and the raising constructor is caught. -/
theorem statement_creation_fails_on_unclamped_due_day
    (cards : List Card) (s : InvoiceStore) (txs : List ExpenseRow)
    (today : Date) (amount : ℚ) (description : String) (cid : Nat)
    (card : Card) (due close : Date)
    (hcard : get_credit_card_details cards cid = some card)
    (hv : today.valid) (hd1 : 1 ≤ card.due_day)
    (heq : calculate_credit_card_due_date today card.close_day card.due_day
      = (due, close))
    (hover : daysInMonth due.year due.month < card.due_day)
    (hnone : findInvoice s cid due.month due.year = none) :
    (save_expense_credit_card cards s txs today amount description cid).success
      = true ∧
    (save_expense_credit_card cards s txs today amount description
        cid).invoice_success = false ∧
    (save_expense_credit_card cards s txs today amount description cid).store
      = s ∧
    findInvoice (save_expense_credit_card cards s txs today amount description
        cid).store cid due.month due.year = none ∧
    (save_expense_credit_card cards s txs today amount description cid).txs
      = txs ++ [{ amount := |amount|, description := description,
                  transaction_type := "expense", due_date := some due,
                  paid_date := none }] ∧
    due.day = daysInMonth due.year due.month := by
  have hprops := calc_due_props today card.close_day card.due_day hv hd1
  rw [heq] at hprops
  dsimp only at hprops
  have hnotvalid : ¬ (⟨due.year, due.month, card.due_day⟩ : Date).valid := by
    intro hval
    exact absurd hval.2.2.2 (by simp; omega)
  have hmk : mkDate due.year due.month card.due_day = none := by
    simp [mkDate, hnotvalid]
  have hbill : create_or_update_invoice cards s cid due.month due.year amount
      = ({ success := false, invoice_id := none, new_amount := none }, s) := by
    unfold create_or_update_invoice
    rw [hnone]
    dsimp only
    rw [hcard]
    dsimp only
    rw [hmk]
  have hsave : save_expense_credit_card cards s txs today amount description cid
      = { success := true, invoice_success := false, store := s,
          txs := txs ++ [{ amount := |amount|, description := description,
                           transaction_type := "expense", due_date := some due,
                           paid_date := none }] } := by
    unfold save_expense_credit_card
    rw [hcard]
    dsimp only
    rw [heq]
    dsimp only
    rw [hbill]
  rw [hsave]
  refine ⟨rfl, rfl, rfl, hnone, rfl, ?_⟩
  have := hprops.2
  omega

/-- Witness for C10: card with closing day 15 and due day 31, purchase
on 2025-02-10 (February 2025 has 28 days), empty invoice store. -/
theorem statement_creation_fails_witness :
    get_credit_card_details [⟨1, 15, 31⟩] 1 = some ⟨1, 15, 31⟩ ∧
    (⟨2025, 2, 10⟩ : Date).valid ∧
    calculate_credit_card_due_date ⟨2025, 2, 10⟩ 15 31
      = (⟨2025, 2, 28⟩, ⟨2025, 2, 15⟩) ∧
    daysInMonth 2025 2 < 31 ∧
    (save_expense_credit_card [⟨1, 15, 31⟩] ⟨[], 0⟩ [] ⟨2025, 2, 10⟩ 50
        "Compra" 1).invoice_success = false ∧
    (save_expense_credit_card [⟨1, 15, 31⟩] ⟨[], 0⟩ [] ⟨2025, 2, 10⟩ 50
        "Compra" 1).store = ⟨[], 0⟩ := by
  have h := statement_creation_fails_on_unclamped_due_day [⟨1, 15, 31⟩]
    ⟨[], 0⟩ [] ⟨2025, 2, 10⟩ 50 "Compra" 1 ⟨1, 15, 31⟩ ⟨2025, 2, 28⟩
    ⟨2025, 2, 15⟩ (by decide) (by decide) (by decide) (by decide) (by decide)
    (by decide)
  exact ⟨by decide, by decide, by decide, by decide, h.2.1, h.2.2.1⟩

/-- C9 counterexample. Transaction 1 is already settled with
`paid_date = 2025-01-01`; marking it paid again with date 2025-02-02
overwrites the stored `paid_date` — not a no-op. -/
theorem mark_paid_not_idempotent_counterexample :
    (mark_transaction_as_paid
        [⟨1, 1, "expense", 50, "Conta", none, some ⟨2025, 1, 1⟩⟩] 1 1
        (some ⟨2025, 2, 2⟩) ⟨2025, 3, 3⟩).txs
      = [⟨1, 1, "expense", 50, "Conta", none, some ⟨2025, 2, 2⟩⟩] ∧
    (⟨2025, 2, 2⟩ : Date) ≠ ⟨2025, 1, 1⟩ := by
  exact ⟨rfl, by decide⟩

/-- C9 amended. Invoking mark-paid on an existing transaction — whether
pending or already settled — succeeds and sets its `paid_date` to the
supplied date (today when none is supplied), leaving every other field
of the row, and every other row, unchanged; it is not a no-op on
already-settled rows. -/
theorem mark_paid_overwrites (txs : List Tx) (tid uid : Nat)
    (pd : Option Date) (today : Date) (t0 : Tx)
    (hfound : txs.find? (fun t => t.id == tid && t.user_id == uid)
      = some t0) :
    (mark_transaction_as_paid txs tid uid pd today).success = true ∧
    (mark_transaction_as_paid txs tid uid pd today).txs.length
      = txs.length ∧
    (∀ i (hi : i < txs.length)
        (hi2 : i < (mark_transaction_as_paid txs tid uid pd today).txs.length),
      (txs.get ⟨i, hi⟩).id = tid → (txs.get ⟨i, hi⟩).user_id = uid →
        (mark_transaction_as_paid txs tid uid pd today).txs.get ⟨i, hi2⟩
          = { txs.get ⟨i, hi⟩ with paid_date := some (pd.getD today) }) ∧
    (∀ i (hi : i < txs.length)
        (hi2 : i < (mark_transaction_as_paid txs tid uid pd today).txs.length),
      ¬((txs.get ⟨i, hi⟩).id = tid ∧ (txs.get ⟨i, hi⟩).user_id = uid) →
        (mark_transaction_as_paid txs tid uid pd today).txs.get ⟨i, hi2⟩
          = txs.get ⟨i, hi⟩) := by
  unfold mark_transaction_as_paid
  rw [hfound]
  dsimp only
  refine ⟨rfl, by simp, ?_, ?_⟩
  · intro i hi hi2 hid huid
    simp only [List.get_eq_getElem] at hid huid ⊢
    simp only [List.getElem_map]
    rw [if_pos (by simp [hid, huid])]
  · intro i hi hi2 hnot
    simp only [List.get_eq_getElem] at hnot ⊢
    simp only [List.getElem_map]
    rw [if_neg (by simpa using hnot)]

/-- Witness for C9 amended: re-marking the already-settled transaction
of the counterexample succeeds. -/
theorem mark_paid_overwrites_witness :
    ([⟨1, 1, "expense", 50, "Conta", none, some ⟨2025, 1, 1⟩⟩] :
        List Tx).find? (fun t => t.id == 1 && t.user_id == 1)
      = some ⟨1, 1, "expense", 50, "Conta", none, some ⟨2025, 1, 1⟩⟩ ∧
    (mark_transaction_as_paid
        [⟨1, 1, "expense", 50, "Conta", none, some ⟨2025, 1, 1⟩⟩] 1 1
        (some ⟨2025, 2, 2⟩) ⟨2025, 3, 3⟩).success = true := by
  have h := mark_paid_overwrites
    [⟨1, 1, "expense", 50, "Conta", none, some ⟨2025, 1, 1⟩⟩] 1 1
    (some ⟨2025, 2, 2⟩) ⟨2025, 3, 3⟩
    ⟨1, 1, "expense", 50, "Conta", none, some ⟨2025, 1, 1⟩⟩ rfl
  exact ⟨rfl, h.1⟩

theorem balance_fold (rows : List Tx) (acc : ℚ × ℚ × Nat × Nat) :
    rows.foldl
      (fun (acc : ℚ × ℚ × Nat × Nat) t =>
        if t.transaction_type == "income" then
          (acc.1 + t.amount, acc.2.1, acc.2.2.1 + 1, acc.2.2.2)
        else if t.transaction_type == "expense" then
          (acc.1, acc.2.1 + t.amount, acc.2.2.1, acc.2.2.2 + 1)
        else acc)
      acc
    = (acc.1 + ((rows.filter (fun t => t.transaction_type == "income")).map
          Tx.amount).sum,
       acc.2.1 + ((rows.filter (fun t => t.transaction_type == "expense")).map
          Tx.amount).sum,
       acc.2.2.1 + (rows.filter
          (fun t => t.transaction_type == "income")).length,
       acc.2.2.2 + (rows.filter
          (fun t => t.transaction_type == "expense")).length) := by
  induction rows generalizing acc with
  | nil => simp
  | cons t rows ih =>
    simp only [List.foldl_cons]
    cases hI : t.transaction_type == "income"
    · cases hE : t.transaction_type == "expense"
      · simp only [hI, hE, if_false, Bool.false_eq_true, reduceIte]
        rw [ih]
        simp [List.filter_cons, hI, hE]
      · simp only [hI, hE, Bool.false_eq_true, reduceIte, if_true]
        rw [ih]
        simp [List.filter_cons, hI, hE, add_assoc] <;> omega
    · have hE : (t.transaction_type == "expense") = false := by
        simp only [beq_iff_eq] at hI ⊢
        rw [hI]
        decide
      simp only [hI, if_true, reduceIte]
      rw [ih]
      simp [List.filter_cons, hI, hE, add_assoc] <;> omega

/-- C5 counterexample. Two pending rows (income 100, expense 40, both
`paid_date = null`) produce exactly the all-zero result of an empty
ledger: the view reports no pending income or pending expense sums
anywhere in its output. -/
theorem balance_ignores_pending_counterexample :
    calculate_user_balance
        [⟨1, 1, "income", 100, "a", none, none⟩,
         ⟨2, 1, "expense", 40, "b", none, none⟩] 1 ⟨2025, 5, 20⟩ none none
      = ⟨0, 0, 0, 0, 0⟩ ∧
    calculate_user_balance
        [⟨1, 1, "income", 100, "a", none, none⟩,
         ⟨2, 1, "expense", 40, "b", none, none⟩] 1 ⟨2025, 5, 20⟩ none none
      = calculate_user_balance [] 1 ⟨2025, 5, 20⟩ none none := by
  refine ⟨?_, rfl⟩
  show (⟨0, 0, (0 : ℚ) - 0, 0, 0⟩ : BalanceResult) = ⟨0, 0, 0, 0, 0⟩
  simp

/-- C5 amended. Over any ledger and explicit range, the balance view
returns the sum of the user's settled income amounts whose `paid_date`
lies in the range, the settled expense sum, their difference as the
balance, and the two counts; on an empty ledger every total and count
is zero.  (No pending sums are computed or returned.) -/
theorem calculate_user_balance_correct (txs : List Tx) (uid : Nat)
    (today s e : Date) :
    (calculate_user_balance txs uid today (some s) (some e)).total_income
      = (((txs.filter (settledInRange uid s e)).filter
          (fun t => t.transaction_type == "income")).map Tx.amount).sum ∧
    (calculate_user_balance txs uid today (some s) (some e)).total_expenses
      = (((txs.filter (settledInRange uid s e)).filter
          (fun t => t.transaction_type == "expense")).map Tx.amount).sum ∧
    (calculate_user_balance txs uid today (some s) (some e)).balance
      = (calculate_user_balance txs uid today (some s) (some e)).total_income
        - (calculate_user_balance txs uid today (some s) (some e)).total_expenses ∧
    (calculate_user_balance txs uid today (some s) (some e)).income_count
      = ((txs.filter (settledInRange uid s e)).filter
          (fun t => t.transaction_type == "income")).length ∧
    (calculate_user_balance txs uid today (some s) (some e)).expense_count
      = ((txs.filter (settledInRange uid s e)).filter
          (fun t => t.transaction_type == "expense")).length ∧
    calculate_user_balance [] uid today none none = ⟨0, 0, 0, 0, 0⟩ := by
  unfold calculate_user_balance
  dsimp only
  rw [balance_fold]
  unfold settledInRange
  dsimp only
  refine ⟨by simp, by simp, by simp, by simp, by simp, ?_⟩
  show (⟨0, 0, (0 : ℚ) - 0, 0, 0⟩ : BalanceResult) = ⟨0, 0, 0, 0, 0⟩
  simp

/-- Witness for C5 amended: the settled income 100 inside the range and
the pending expense are classified correctly on a concrete ledger. -/
theorem calculate_user_balance_correct_witness :
    (calculate_user_balance
        [⟨1, 1, "income", 100, "a", none, some ⟨2025, 5, 10⟩⟩,
         ⟨2, 1, "expense", 40, "b", none, none⟩] 1 ⟨2025, 5, 20⟩
        (some ⟨2025, 5, 1⟩) (some ⟨2025, 5, 31⟩)).total_income
      = (((([⟨1, 1, "income", 100, "a", none, some ⟨2025, 5, 10⟩⟩,
             ⟨2, 1, "expense", 40, "b", none, none⟩] : List Tx).filter
          (settledInRange 1 ⟨2025, 5, 1⟩ ⟨2025, 5, 31⟩)).filter
          (fun t => t.transaction_type == "income")).map Tx.amount).sum ∧
    calculate_user_balance [] 1 ⟨2025, 5, 20⟩ none none = ⟨0, 0, 0, 0, 0⟩ := by
  have h := calculate_user_balance_correct
    [⟨1, 1, "income", 100, "a", none, some ⟨2025, 5, 10⟩⟩,
     ⟨2, 1, "expense", 40, "b", none, none⟩] 1 ⟨2025, 5, 20⟩
    ⟨2025, 5, 1⟩ ⟨2025, 5, 31⟩
  exact ⟨h.1, h.2.2.2.2.2⟩

theorem filter_filter_eq {α} (p q : α → Bool) (l : List α) :
    (l.filter p).filter q = l.filter (fun a => p a && q a) := by
  induction l with
  | nil => rfl
  | cons a t ih =>
    simp only [List.filter_cons]
    cases hp : p a <;> cases hq : q a <;>
      simp [List.filter_cons, hp, hq, ih]

theorem commitments_fold_counts (cms nms : Date) (l : List Tx)
    (acc : Commitments) :
    (l.foldl
      (fun acc t =>
        match t.due_date with
        | none => acc
        | some d =>
          if dateLe cms d && dateLt d nms then
            { acc with this_month := acc.this_month.add t }
          else if dateLe nms d && d.month == nms.month then
            { acc with next_month := acc.next_month.add t }
          else
            { acc with future := acc.future.add t }) acc).countsSum
      = acc.countsSum + (l.filter (fun t => t.due_date.isSome)).length := by
  induction l generalizing acc with
  | nil => simp
  | cons t l ih =>
    simp only [List.foldl_cons, List.filter_cons]
    cases hd : t.due_date with
    | none =>
      simp only [hd, Option.isSome_none, Bool.false_eq_true, reduceIte]
      exact ih acc
    | some d =>
      simp only [hd, Option.isSome_some, reduceIte]
      split
      · rw [ih]
        simp only [Commitments.countsSum, Bucket.add, List.length_cons]
        omega
      · split
        · rw [ih]
          simp only [Commitments.countsSum, Bucket.add, List.length_cons]
          omega
        · rw [ih]
          simp only [Commitments.countsSum, Bucket.add, List.length_cons]
          omega

/-- C6 counterexample. A pending expense whose `due_date` is null (as
the non-card fallback of `save_expense_transaction` produces) lands in
no bucket: the three counts sum to 0 while the user has 1 pending
expense transaction. -/
theorem pending_commitments_skip_null_due_counterexample :
    (get_pending_commitments [⟨1, 1, "expense", 50, "x", none, none⟩] 1
        ⟨2025, 5, 20⟩).countsSum = 0 ∧
    (([⟨1, 1, "expense", 50, "x", none, none⟩] : List Tx).filter
        (fun t => t.user_id == 1 && t.transaction_type == "expense" &&
          t.paid_date == none)).length = 1 := by
  exact ⟨rfl, rfl⟩

/-- C6 amended. The pending-commitments view partitions the user's
pending expense transactions *that carry a due date* into the three
buckets: the three counts always sum to the number of pending expense
rows with non-null `due_date`; rows with a null `due_date` are counted
in no bucket. -/
theorem pending_commitments_partition (txs : List Tx) (uid : Nat)
    (today : Date) :
    (get_pending_commitments txs uid today).countsSum
      = (txs.filter (fun t => (t.user_id == uid &&
          t.transaction_type == "expense" && t.paid_date == none) &&
          t.due_date.isSome)).length := by
  unfold get_pending_commitments
  dsimp only
  rw [commitments_fold_counts]
  rw [filter_filter_eq]
  simp [Commitments.countsSum]

theorem prevDay_step (d : Date) (hv : d.valid) (hy : 1 ≤ d.year) :
    (prevDay d).valid ∧ dateIdx (prevDay d) + 1 ≤ dateIdx d ∧
    dateIdx d ≤ dateIdx (prevDay d) + 5 := by
  obtain ⟨hm1, hm2, hd1, hd2⟩ := hv
  have hdm := daysInMonth_bounds d.year d.month hm1 hm2
  unfold prevDay
  by_cases h1 : d.day > 1
  · simp only [h1, if_true, reduceIte]
    refine ⟨⟨hm1, hm2, by dsimp; omega, by dsimp; omega⟩, ?_, ?_⟩ <;>
      · unfold dateIdx
        dsimp
        omega
  · by_cases h2 : d.month > 1
    · simp only [h1, h2, if_true, reduceIte]
      have hdm2 := daysInMonth_bounds d.year (d.month - 1) (by omega) (by omega)
      refine ⟨⟨by dsimp; omega, by dsimp; omega, by dsimp; omega,
        by dsimp; omega⟩, ?_, ?_⟩ <;>
        · unfold dateIdx
          dsimp
          omega
    · simp only [h1, h2, reduceIte]
      have hdm12 : daysInMonth (d.year - 1) 12 = 31 := by
        unfold daysInMonth
        norm_num
      refine ⟨⟨by dsimp; omega, by dsimp; omega, by dsimp; omega,
        by dsimp; omega⟩, ?_, ?_⟩ <;>
        · unfold dateIdx
          dsimp
          omega

theorem subDays_props : ∀ n (d : Date), d.valid → 417 + 5 * n ≤ dateIdx d →
    (subDays d n).valid ∧ dateIdx (subDays d n) + n ≤ dateIdx d ∧
    dateIdx d ≤ dateIdx (subDays d n) + 5 * n := by
  intro n
  induction n with
  | zero =>
    intro d hv _
    simp only [subDays]
    exact ⟨hv, by omega, by omega⟩
  | succ n ih =>
    intro d hv hidx
    have hy : 1 ≤ d.year := by
      by_contra hc
      obtain ⟨hm1, hm2, hd1, hd2⟩ := hv
      have := daysInMonth_bounds d.year d.month hm1 hm2
      unfold dateIdx at hidx
      omega
    obtain ⟨hpv, hp1, hp2⟩ := prevDay_step d hv hy
    obtain ⟨hrv, hr1, hr2⟩ := ih (prevDay d) hpv (by omega)
    simp only [subDays]
    exact ⟨hrv, by omega, by omega⟩

theorem subDays_add (d : Date) (a b : Nat) :
    subDays d (a + b) = subDays (subDays d a) b := by
  induction a generalizing d with
  | zero => simp only [Nat.zero_add, subDays]
  | succ a ih =>
    have h : a + 1 + b = (a + b) + 1 := by omega
    rw [h]
    simp only [subDays]
    exact ih (prevDay d)

theorem subDays_anti (d : Date) (hv : d.valid) (n1 n2 : Nat) (h12 : n1 ≤ n2)
    (hidx : 417 + 5 * n2 ≤ dateIdx d) :
    (subDays d n1).valid ∧ (subDays d n2).valid ∧
    dateIdx (subDays d n2) ≤ dateIdx (subDays d n1) := by
  obtain ⟨h1v, h11, h12b⟩ := subDays_props n1 d hv (by omega)
  have e : subDays d n2 = subDays (subDays d n1) (n2 - n1) := by
    rw [← subDays_add]
    congr 1
    omega
  obtain ⟨h2v, h21, h22⟩ := subDays_props (n2 - n1) (subDays d n1) h1v
    (by omega)
  rw [e]
  exact ⟨h1v, h2v, by omega⟩

theorem monthIdx_le_of_dateIdx_le (a b : Date) (hva : a.valid)
    (hvb : b.valid) (h : dateIdx a ≤ dateIdx b) :
    a.year * 12 + a.month ≤ b.year * 12 + b.month := by
  obtain ⟨ham1, ham2, had1, had2⟩ := hva
  obtain ⟨hbm1, hbm2, hbd1, hbd2⟩ := hvb
  have ha := daysInMonth_bounds a.year a.month ham1 ham2
  have hb := daysInMonth_bounds b.year b.month hbm1 hbm2
  unfold dateIdx at h
  omega

theorem clampTrendMonths_spec (mreq : Option Int) :
    1 ≤ clampTrendMonths mreq ∧ clampTrendMonths mreq ≤ 12 := by
  cases mreq with
  | none =>
    refine ⟨?_, ?_⟩ <;> simp [clampTrendMonths]
  | some m =>
    simp only [clampTrendMonths]
    refine ⟨?_, ?_⟩ <;>
    · split
      · omega
      · split <;> omega

theorem trend_length (txs : List Tx) (uid : Nat) (today : Date) (K : Nat) :
    (get_monthly_trend txs uid today K).length = K := by
  simp [get_monthly_trend]

theorem trend_get_label (txs : List Tx) (uid : Nat) (today : Date)
    (K k : Nat) (hk2 : k < (get_monthly_trend txs uid today K).length) :
    ((get_monthly_trend txs uid today K).get ⟨k, hk2⟩).year
        = (subDays ⟨today.year, today.month, 1⟩ ((K - 1 - k) * 30)).year ∧
    ((get_monthly_trend txs uid today K).get ⟨k, hk2⟩).month
        = (subDays ⟨today.year, today.month, 1⟩ ((K - 1 - k) * 30)).month := by
  unfold get_monthly_trend
  simp only [List.get_eq_getElem, List.getElem_map, List.getElem_range]
  refine ⟨?_, ?_⟩ <;> first | rfl | trivial

set_option maxRecDepth 40000 in
/-- C7 counterexample. With today = 2025-03-15 and a requested window
of 4 months (left uncapped by the wrapper), the rows are labeled
December 2024 twice, January 2025 and March 2025: the 30-day stepping
repeats a month and skips February, so the rows do not cover 4 distinct
consecutive calendar months. -/
theorem monthly_trend_30day_step_counterexample :
    (get_monthly_trend [] 1 ⟨2025, 3, 15⟩ (clampTrendMonths (some 4))).map
        (fun r => (r.year, r.month))
      = [(2024, 12), (2024, 12), (2025, 1), (2025, 3)] ∧
    ¬ ((get_monthly_trend [] 1 ⟨2025, 3, 15⟩
        (clampTrendMonths (some 4))).map
        (fun r => (r.year, r.month))).Nodup := by
  constructor
  · decide
  · decide

/-- C7 amended. The monthly-trend wrapper uses the requested month
count defaulted to 6 when absent or below 1 and capped at 12, and
returns exactly that many rows; each row's label is the month of
`first-of-current-month − 30·offset days`, so the labels are in
chronological order (oldest first, as nondecreasing month indices) but
are *not* always distinct consecutive calendar months (a label can
repeat and a month can be skipped); each row's balance equals its
income minus its expense, and the reported across-window averages times
the row count give back the window sums. -/
theorem monthly_trend_correct (txs : List Tx) (uid : Nat) (today : Date)
    (mreq : Option Int) (hv : today.valid) (hy : 6 ≤ today.year) :
    1 ≤ clampTrendMonths mreq ∧ clampTrendMonths mreq ≤ 12 ∧
    clampTrendMonths none = 6 ∧
    (∀ m : Int, m < 1 → clampTrendMonths (some m) = 6) ∧
    (∀ m : Int, 12 < m → clampTrendMonths (some m) = 12) ∧
    (get_monthly_trend txs uid today (clampTrendMonths mreq)).length
      = clampTrendMonths mreq ∧
    (∀ i j (hi : i < (get_monthly_trend txs uid today
          (clampTrendMonths mreq)).length)
        (hj : j < (get_monthly_trend txs uid today
          (clampTrendMonths mreq)).length), i ≤ j →
      ((get_monthly_trend txs uid today (clampTrendMonths mreq)).get
          ⟨i, hi⟩).year * 12 +
        ((get_monthly_trend txs uid today (clampTrendMonths mreq)).get
          ⟨i, hi⟩).month
      ≤ ((get_monthly_trend txs uid today (clampTrendMonths mreq)).get
          ⟨j, hj⟩).year * 12 +
        ((get_monthly_trend txs uid today (clampTrendMonths mreq)).get
          ⟨j, hj⟩).month) ∧
    (∀ r ∈ get_monthly_trend txs uid today (clampTrendMonths mreq),
      r.balance = r.income - r.expenses) ∧
    (trendAverages (get_monthly_trend txs uid today
        (clampTrendMonths mreq))).1 * (clampTrendMonths mreq : ℚ)
      = ((get_monthly_trend txs uid today (clampTrendMonths mreq)).map
          TrendRow.income).sum := by
  obtain ⟨hK1, hK12⟩ := clampTrendMonths_spec mreq
  obtain ⟨hm1, hm2, hd1, hd2⟩ := hv
  have hd0v : (⟨today.year, today.month, 1⟩ : Date).valid := by
    have hb := daysInMonth_bounds today.year today.month hm1 hm2
    unfold Date.valid
    dsimp only
    exact ⟨hm1, hm2, by omega, by omega⟩
  refine ⟨hK1, hK12, by simp [clampTrendMonths], ?_, ?_,
    trend_length txs uid today _, ?_, ?_, ?_⟩
  · intro m hm
    simp [clampTrendMonths, hm]
  · intro m hm
    have hm2 : ¬ (m < 1) := by omega
    simp [clampTrendMonths, hm, hm2]
  · intro i j hi hj hij
    obtain ⟨hyi, hmi⟩ := trend_get_label txs uid today (clampTrendMonths mreq)
      i hi
    obtain ⟨hyj, hmj⟩ := trend_get_label txs uid today (clampTrendMonths mreq)
      j hj
    rw [hyi, hmi, hyj, hmj]
    have hlen := trend_length txs uid today (clampTrendMonths mreq)
    have hjK : j < clampTrendMonths mreq := by omega
    have hoff : (clampTrendMonths mreq - 1 - j) * 30
        ≤ (clampTrendMonths mreq - 1 - i) * 30 := by omega
    have hbound : 417 + 5 * ((clampTrendMonths mreq - 1 - i) * 30)
        ≤ dateIdx ⟨today.year, today.month, 1⟩ := by
      unfold dateIdx
      dsimp
      have : clampTrendMonths mreq - 1 - i ≤ 11 := by omega
      omega
    obtain ⟨hv1, hv2, hle⟩ := subDays_anti ⟨today.year, today.month, 1⟩ hd0v
      ((clampTrendMonths mreq - 1 - j) * 30)
      ((clampTrendMonths mreq - 1 - i) * 30) hoff hbound
    exact monthIdx_le_of_dateIdx_le _ _ hv2 hv1 hle
  · intro r hr
    unfold get_monthly_trend at hr
    simp only [List.mem_map, List.mem_range] at hr
    obtain ⟨k, _, rfl⟩ := hr
    rfl
  · have hlen := trend_length txs uid today (clampTrendMonths mreq)
    unfold trendAverages
    rw [hlen]
    dsimp only
    rw [div_mul_cancel₀]
    exact Nat.cast_ne_zero.mpr (by omega)

/-- Witness for C7 amended: with no requested count the window defaults
to 6 rows on 2025-06-15. -/
theorem monthly_trend_correct_witness :
    (⟨2025, 6, 15⟩ : Date).valid ∧ 6 ≤ 2025 ∧
    (get_monthly_trend [] 1 ⟨2025, 6, 15⟩ (clampTrendMonths none)).length
      = clampTrendMonths none := by
  have h := monthly_trend_correct [] 1 ⟨2025, 6, 15⟩ none (by decide)
    (by norm_num)
  exact ⟨by decide, by norm_num, h.2.2.2.2.2.1⟩

end Ledger
